import Mathlib

/-!
Verification of the stellar-core Prometheus exporter
(src/stellar-core-prometheus-exporter/stellar-core-prometheus-exporter.py)
against its natural-language specification.

The exporter is a single request handler: per scrape it resolves version
labels from the info endpoint, translates the metrics snapshot
(counter/meter/timer entries), translates info-derived metrics, and writes
the exposition text.  We embed the handler shallowly:

- JSON values are modelled by an inductive `JVal`; JSON numbers are
  modelled as exact rationals (the spec treats the conversion factors as
  exact).  JSON objects are ordered association lists; key lookup takes
  the first occurrence (inputs in theorems use distinct keys).
- Python exceptions (KeyError, TypeError, IndexError, requests/JSON
  failures, ValueError from the prometheus client on a label-count
  mismatch) are modelled as `Except Unit`; the handler has no try/except
  around its body, so any such error aborts the scrape with no HTTP
  response written (`ScrapeOutcome.crash`).
- A failed upstream fetch or JSON decode is modelled as the input being
  `none`.
- One point of the Python standard library semantics matters: on the
  legacy quorum shape the code runs `info['quorum'].values()[0]`; we model
  the Python 2 semantics this script was written for (first value of the
  mapping, IndexError when empty).
- The prometheus client raises when the number of label values passed to
  `labels()` differs from the number of declared label names; `emit`
  models that check.  The client library duplicate-name registry check is
  not modelled; no claim depends on it, and all concrete inputs used in
  theorems have distinct normalized names.
- Regex character class `\d` and `lower()` are modelled on ASCII, the
  alphabet of all version strings and metric names involved.
-/

/-- A JSON value as consumed by the exporter.  Objects are ordered
association lists (Python dict insertion order). -/
inductive JVal where
  | num (q : ℚ)
  | str (s : String)
  | bool (b : Bool)
  | obj (fields : List (String × JVal))

/-- Field access `j[k]` on a JSON value: `none` models both KeyError
(missing key) and TypeError (indexing a non-object with a string). -/
def JVal.getF : JVal → String → Option JVal
  | .obj fs, k => fs.lookup k
  | _, _ => none

/-- Python truthiness of a JSON value, used by the transitive-quorum
`intersection` branch. -/
def JVal.truthy : JVal → Bool
  | .num q => q ≠ 0
  | .str s => s ≠ ""
  | .bool b => b
  | .obj fs => !fs.isEmpty

/-- The Prometheus-side type of an emitted series. -/
inductive PromKind where
  | gauge
  | counter
deriving DecidableEq, Repr

/-- One emitted sample: name, Prometheus kind, help text, label names,
label values and the sample value. -/
structure OutputMetric where
  name : String
  kind : PromKind
  help : String
  labelNames : List String
  labelValues : List String
  value : ℚ
deriving DecidableEq, Repr

/-- Label names declared for every metric (set_vars, line 101). -/
def label_names : List String := ["ver_major", "ver_minor", "ver_patch", "ver_extra"]

/-- Registering a sample.  The prometheus client raises ValueError when
the number of label values does not match the number of declared label
names; that check is the guard here. -/
def emit (name : String) (kind : PromKind) (help : String)
    (names : List String) (values : List String) (v : ℚ) : Except Unit OutputMetric :=
  if names.length = values.length then
    .ok ⟨name, kind, help, names, values, v⟩
  else
    .error ()

/-- Reading a numeric field of an entry; KeyError / TypeError on anything
else is an error. -/
def getNumF (e : List (String × JVal)) (k : String) : Except Unit ℚ :=
  match e.lookup k with
  | some (.num q) => .ok q
  | _ => .error ()

/-- Reading a string field of an entry. -/
def getStrF (e : List (String × JVal)) (k : String) : Except Unit String :=
  match e.lookup k with
  | some (.str s) => .ok s
  | _ => .error ()

/-- Reading an object field of an entry. -/
def getObjF (e : List (String × JVal)) (k : String) : Except Unit (List (String × JVal)) :=
  match e.lookup k with
  | some (.obj fs) => .ok fs
  | _ => .error ()

/-- Conversion of Option to Except Unit. -/
def ofOpt : Option α → Except Unit α
  | some a => .ok a
  | none => .error ()

/-- duration_to_seconds (lines 47-57): a dict keyed by the unit tag;
an unknown unit raises KeyError, modelled as `none`.  The evaluated
expressions are the exact factors. -/
def duration_to_seconds (duration : ℚ) (duration_unit : String) : Option ℚ :=
  if duration_unit = "d" then some (duration * 86400)
  else if duration_unit = "h" then some (duration * 3600)
  else if duration_unit = "m" then some (duration * 60)
  else if duration_unit = "s" then some (duration / 1)
  else if duration_unit = "ms" then some (duration / 1000)
  else if duration_unit = "us" then some (duration / 1000000)
  else if duration_unit = "ns" then some (duration / 1000000000)
  else none

/-- The seven unit tags recognized by duration_to_seconds. -/
def known_units : List String := ["d", "h", "m", "s", "ms", "us", "ns"]

/-- Membership of a character in the Python regex class given by
backslash-s (space, tab, newline, carriage return, vertical tab, form
feed). -/
def isPyWhite (c : Char) : Bool :=
  c = ' ' || c = '\t' || c = '\n' || c = '\r' || c = '\x0b' || c = '\x0c'

/-- One step of the substitution on line 110: each single occurrence of a
dot, a hyphen or one whitespace character becomes an underscore; every
other character is kept. -/
def py_sub_char (c : Char) : Char :=
  if c = '.' ∨ c = '-' ∨ isPyWhite c then '_' else c

/-- Character list of the normalized metric name (lines 110-111):
substitute, lowercase, prepend the namespace. -/
def normalize_chars (k : List Char) : List Char :=
  "stellar_core_".toList ++ (k.map py_sub_char).map Char.toLower

/-- Normalized metric name of a raw snapshot key. -/
def normalize_name (k : String) : String :=
  String.mk (normalize_chars k.toList)

/-- Splitting a leading literal: if the list starts with the given
pattern, return the remainder. -/
def dropLit (pat : List Char) (s : List Char) : Option (List Char) :=
  if s.take pat.length = pat then some (s.drop pat.length) else none

/-- Maximal leading digit run and the remainder. -/
def spanDigits (s : List Char) : List Char × List Char :=
  (s.takeWhile Char.isDigit, s.dropWhile Char.isDigit)

/-- Tail of the build pattern after the leading literal,
 ?(\d+)\.(\d+)\.(\d+)(-[^ ]+)?.*$ : one optional space, three digit
groups separated by dots, an optional group of a hyphen followed by
non-space characters, arbitrary trailing text.  The greedy/backtracking
regex behaviour collapses to this deterministic parser: a digit run
followed by a literal never benefits from giving characters back, and
the trailing .*$ accepts any remainder (build strings contain no
newline). -/
def match_version_tail (r1 : List Char) :
    Option (String × String × String × Option String) :=
  let r2 := if r1.head? = some ' ' then r1.tail else r1
  let (d1, r3) := spanDigits r2
  if d1 = [] then none else
  if r3.head? = some '.' then
    let (d2, r5) := spanDigits r3.tail
    if d2 = [] then none else
    if r5.head? = some '.' then
      let (d3, r7) := spanDigits r5.tail
      if d3 = [] then none else
      let g5 : Option (List Char) :=
        if r7.head? = some '-' then
          let e := r7.tail.takeWhile (fun c => c ≠ ' ')
          if e = [] then none else some ('-' :: e)
        else none
      some (String.mk d1, String.mk d2, String.mk d3, g5.map String.mk)
    else none
  else none

/-- Matcher for the anchored build regex of line 98,
(stellar-core|v) ?(\d+)\.(\d+)\.(\d+)(-[^ ]+)?.*$ , under re.match
semantics.  Returns the strings of groups 2, 3 and 4 and, when present,
group 5.  The two alternatives of the mandatory group 1 are disjoint on
the first character, so no backtracking across them is possible. -/
def build_match (build : String) : Option (String × String × String × Option String) :=
  let cs := build.toList
  let afterG1 : Option (List Char) :=
    match dropLit "stellar-core".toList cs with
    | some r => some r
    | none => dropLit ['v'] cs
  match afterG1 with
  | none => none
  | some r1 => match_version_tail r1

/-- Pure part of get_labels (lines 71-86): match the build string; on no
match return the empty list; on a match return the three version groups
and group 5 with its leading hyphens stripped (empty when group 5 is
absent). -/
def parse_build_labels (build : String) : List String :=
  match build_match build with
  | none => []
  | some (maj, mino, pat, extra) =>
    [maj, mino, pat,
     match extra with
     | none => ""
     | some e => String.mk (e.toList.dropWhile (fun c => c = '-'))]

/-- Extraction attempted inside the try block of get_labels
(lines 65-68): the fetched response, its info object and its build field.
`none` models a transport failure, a JSON-decode failure or a missing
key, all caught by the except clause. -/
def info_build (resp : Option JVal) : Option JVal := do
  let j ← resp
  let i ← j.getF "info"
  i.getF "build"

/-- get_labels (lines 64-86).  A caught failure yields the empty list.
A build field that is not a string escapes the try block: the regex match
on line 71 then raises TypeError, modelled as an error that aborts the
scrape. -/
def get_labels (resp : Option JVal) : Except Unit (List String) :=
  match info_build resp with
  | none => .ok []
  | some (.str build) => .ok (parse_build_labels build)
  | some _ => .error ()

/-- Python string equality test of a JSON value against a string literal:
true only for an equal string, false (never an error) for every other
shape. -/
def JVal.isStr (v : JVal) (s : String) : Bool :=
  match v with
  | .str t => t = s
  | _ => false

/-- total_duration of a timer entry (lines 117-122): the sum field when
present, otherwise mean times count. -/
def timer_total (e : List (String × JVal)) : Except Unit ℚ :=
  match e.lookup "sum" with
  | some (.num q) => .ok q
  | some _ => .error ()
  | none => do
      let m ← getNumF e "mean"
      let c ← getNumF e "count"
      pure (m * c)

/-- Translation of one metrics-snapshot entry (lines 109-142): normalize
the name, dispatch on the type tag.  A timer emits four samples in three
series with the seconds suffixes; a counter one gauge; a meter one
Prometheus counter; any other tag emits nothing.  A missing type tag or
missing numeric field raises, modelled as an error. -/
def translate_entry (labels : List String) (k : String) (v : JVal) :
    Except Unit (List OutputMetric) :=
  match v with
  | .obj e =>
    let base := normalize_chars k.toList
    match e.lookup "type" with
    | none => .error ()
    | some t =>
      if t.isStr "timer" then do
        let nameChars := base ++ "_seconds".toList
        let total ← timer_total e
        let cnt ← getNumF e "count"
        let m1 ← emit (String.mk (nameChars ++ "_count".toList)) .counter
          "libmedida metric type: timer" label_names labels cnt
        let unit ← getStrF e "duration_unit"
        let ssum ← ofOpt (duration_to_seconds total unit)
        let m2 ← emit (String.mk (nameChars ++ "_sum".toList)) .counter
          "libmedida metric type: timer" label_names labels ssum
        let p75 ← getNumF e "75%"
        let s75 ← ofOpt (duration_to_seconds p75 unit)
        let m3 ← emit (String.mk nameChars) .gauge "libmedida metric type: timer"
          (label_names ++ ["quantile"]) (labels ++ ["0.75"]) s75
        let p99 ← getNumF e "99%"
        let s99 ← ofOpt (duration_to_seconds p99 unit)
        let m4 ← emit (String.mk nameChars) .gauge "libmedida metric type: timer"
          (label_names ++ ["quantile"]) (labels ++ ["0.99"]) s99
        pure [m1, m2, m3, m4]
      else if t.isStr "counter" then do
        let cnt ← getNumF e "count"
        let m ← emit (String.mk base) .gauge "libmedida metric type: counter"
          label_names labels cnt
        pure [m]
      else if t.isStr "meter" then do
        let cnt ← getNumF e "count"
        let m ← emit (String.mk base) .counter "libmedida metric type: meter"
          label_names labels cnt
        pure [m]
      else
        .ok []
  | _ => .error ()

/-- Translation of the whole metrics snapshot, entry by entry in mapping
order; the first error aborts the scrape. -/
def translate_metrics (labels : List String) :
    List (String × JVal) → Except Unit (List OutputMetric)
  | [] => .ok []
  | (k, v) :: rest => do
      let ms ← translate_entry labels k v
      let rest2 ← translate_metrics labels rest
      pure (ms ++ rest2)

/-- mapE is mapM over Except Unit, written recursively so that proofs can
follow the structure. -/
def mapE (f : α → Except Unit β) : List α → Except Unit (List β)
  | [] => .ok []
  | a :: l => do
      let b ← f a
      let bs ← mapE f l
      pure (b :: bs)

/-- Required info keys (line 89). -/
def info_keys : List String :=
  ["ledger", "peers", "protocol_version", "quorum", "startedOn", "state"]

/-- Ledger field names and their metric-name suffixes (lines 90-92). -/
def ledger_metrics : List (String × String) :=
  [("age", "age"), ("baseFee", "base_fee"), ("baseReserve", "base_reserve"),
   ("closeTime", "close_time"), ("maxTxSetSize", "max_tx_set_size"),
   ("num", "num"), ("version", "version")]

/-- Quorum gauge names (line 93). -/
def quorum_metrics : List String := ["agree", "delayed", "disagree", "fail_at", "missing"]

/-- Choice of the quorum source object (lines 167-170): the qset entry
when present, otherwise values()[0] under the Python 2 semantics this
script targets, which is the first value of the mapping; IndexError on an
empty mapping. -/
def quorum_tmp (q : List (String × JVal)) : Except Unit JVal :=
  match q.lookup "qset" with
  | some v => .ok v
  | none =>
    match q with
    | [] => .error ()
    | (_, v) :: _ => .ok v

/-- The five quorum gauges (lines 167-175). -/
def quorum_gauges (labels : List String) (q : List (String × JVal)) :
    Except Unit (List OutputMetric) := do
  let tmp ← quorum_tmp q
  mapE (fun mn => do
      let v ← (match tmp.getF mn with
        | some (.num x) => Except.ok x
        | _ => Except.error ())
      emit ("stellar_core_quorum_" ++ mn) .gauge ("Stellar core quorum metric: " ++ mn)
        label_names labels v)
    quorum_metrics

/-- The transitive-quorum gauges (lines 177-193), emitted only when the
transitive key is present. -/
def transitive_gauges (labels : List String) (q : List (String × JVal)) :
    Except Unit (List OutputMetric) :=
  match q.lookup "transitive" with
  | none => .ok []
  | some t => do
      let inter ← ofOpt (t.getF "intersection")
      let m1 ← emit "stellar_core_quorum_transitive_intersection" .gauge
        "Stellar core quorum transitive intersection" label_names labels
        (if inter.truthy then 1 else 0)
      let lcl ← (match t.getF "last_check_ledger" with
        | some (.num x) => Except.ok x
        | _ => Except.error ())
      let m2 ← emit "stellar_core_quorum_transitive_last_check_ledger" .gauge
        "Stellar core quorum transitive last_check_ledger" label_names labels lcl
      let nc ← (match t.getF "node_count" with
        | some (.num x) => Except.ok x
        | _ => Except.error ())
      let m3 ← emit "stellar_core_quorum_transitive_node_count" .gauge
        "Stellar core quorum transitive node_count" label_names labels nc
      pure [m1, m2, m3]

/-- Leap year test of the proleptic Gregorian calendar. -/
def isLeapYear (y : ℕ) : Bool := (y % 4 = 0 && y % 100 != 0) || y % 400 = 0

/-- Number of days of a month, as validated by the datetime constructor. -/
def daysInMonth (y m : ℕ) : ℕ :=
  if m = 2 then (if isLeapYear y then 29 else 28)
  else if m = 4 ∨ m = 6 ∨ m = 9 ∨ m = 11 then 30
  else 31

/-- Numeric value of a digit run. -/
def digitsToNat (l : List Char) : ℕ := l.foldl (fun a c => a * 10 + (c.toNat - 48)) 0

/-- Days between a civil date and 1970-01-01 (the standard
days-from-civil algorithm, exact on truncating integer division for
valid dates). -/
def days_from_civil (y m d : ℤ) : ℤ :=
  let y2 := if m ≤ 2 then y - 1 else y
  let era := (if 0 ≤ y2 then y2 else y2 - 399) / 400
  let yoe := y2 - era * 400
  let doy := (153 * (m + (if 2 < m then (-3) else 9)) + 2) / 5 + d - 1
  let doe := yoe * 365 + yoe / 4 - yoe / 100 + doy
  era * 146097 + doe - 719468

/-- strptime of startedOn with format %Y-%m-%dT%H:%M:%SZ (line 217):
a four-digit year, one- or two-digit month, day, hour, minute and second
inside their calendar ranges, the exact separators, nothing left over;
ValueError, modelled as none, otherwise.  The value is the Unix epoch
second count of the parsed time. -/
def parse_timestamp (s : String) : Option ℤ :=
  let cs := s.toList
  let (yd, r1) := spanDigits cs
  if yd.length = 4 then
    match r1 with
    | '-' :: r2 =>
      let (md, r3) := spanDigits r2
      if md ≠ [] ∧ md.length ≤ 2 then
        match r3 with
        | '-' :: r4 =>
          let (dd, r5) := spanDigits r4
          if dd ≠ [] ∧ dd.length ≤ 2 then
            match r5 with
            | 'T' :: r6 =>
              let (hd, r7) := spanDigits r6
              if hd ≠ [] ∧ hd.length ≤ 2 then
                match r7 with
                | ':' :: r8 =>
                  let (mid, r9) := spanDigits r8
                  if mid ≠ [] ∧ mid.length ≤ 2 then
                    match r9 with
                    | ':' :: r10 =>
                      let (sd, r11) := spanDigits r10
                      if sd ≠ [] ∧ sd.length ≤ 2 then
                        match r11 with
                        | ['Z'] =>
                          let y := digitsToNat yd
                          let mo := digitsToNat md
                          let d := digitsToNat dd
                          let h := digitsToNat hd
                          let mi := digitsToNat mid
                          let sec := digitsToNat sd
                          if 1 ≤ y ∧ 1 ≤ mo ∧ mo ≤ 12 ∧ 1 ≤ d ∧ d ≤ daysInMonth y mo ∧
                              h ≤ 23 ∧ mi ≤ 59 ∧ sec ≤ 59 then
                            some (days_from_civil y mo d * 86400 + h * 3600 + mi * 60 + sec)
                          else none
                        | _ => none
                      else none
                    | _ => none
                  else none
                | _ => none
              else none
            | _ => none
          else none
        | _ => none
      else none
    | _ => none
  else none

/-- Info-derived metric translation (lines 151-218), reached only when
every required info key is present: seven ledger gauges, five quorum
gauges, zero or three transitive gauges, two peer gauges, the protocol
version, the synced flag (exact case-sensitive comparison of state
against the string on line 211) and the start timestamp. -/
def info_translate (labels : List String) (info : List (String × JVal)) :
    Except Unit (List OutputMetric) := do
  let ledger ← getObjF info "ledger"
  let lms ← mapE (fun cp => do
      let v ← getNumF ledger cp.1
      emit ("stellar_core_ledger_" ++ cp.2) .gauge
        ("Stellar core ledger metric name: " ++ cp.1) label_names labels v)
    ledger_metrics
  let quorum ← getObjF info "quorum"
  let qms ← quorum_gauges labels quorum
  let tms ← transitive_gauges labels quorum
  let peers ← getObjF info "peers"
  let ac ← getNumF peers "authenticated_count"
  let m1 ← emit "stellar_core_peers_authenticated_count" .gauge
    "Stellar core authenticated_count count" label_names labels ac
  let pc ← getNumF peers "pending_count"
  let m2 ← emit "stellar_core_peers_pending_count" .gauge
    "Stellar core pending_count count" label_names labels pc
  let pv ← getNumF info "protocol_version"
  let m3 ← emit "stellar_core_protocol_version" .gauge
    "Stellar core protocol_version" label_names labels pv
  let st ← ofOpt (info.lookup "state")
  let m4 ← emit "stellar_core_synced" .gauge "Stellar core sync status"
    label_names labels (if st.isStr "Synced!" then 1 else 0)
  let so ← getStrF info "startedOn"
  let ep ← ofOpt (parse_timestamp so)
  let m5 ← emit "stellar_core_started_on" .gauge "Stellar core start time in epoch"
    label_names labels (ep : ℚ)
  pure (lms ++ qms ++ tms ++ [m1, m2, m3, m4, m5])

/-- Outcome of one scrape request: a 200 response whose body holds the
listed samples, an early return after the incomplete-info warning (the
registry was filled from the metrics snapshot but no HTTP response is
written), or an unhandled exception (no HTTP response either). -/
inductive ScrapeOutcome where
  | ok (body : List OutputMetric)
  | incomplete (registry : List OutputMetric)
  | crash
deriving DecidableEq, Repr

/-- Samples sitting in the per-request registry when the handler ends. -/
def registryOf : ScrapeOutcome → List OutputMetric
  | .ok body => body
  | .incomplete reg => reg
  | .crash => []

/-- True exactly when the handler writes an HTTP response (lines 220-224
run only on the full-success path: the incomplete-info branch returns on
line 149 before them and an exception skips them). -/
def responseWritten : ScrapeOutcome → Bool
  | .ok _ => true
  | _ => false

/-- do_GET (lines 104-224): resolve labels from the first info fetch,
fetch and translate the metrics snapshot, fetch the info snapshot again,
check the six required keys (warn and return when one is missing),
translate the info metrics and write the response.  An input of none
models a failed fetch or JSON decode of that endpoint. -/
def do_GET_model (infoResp1 metricsResp infoResp2 : Option JVal) : ScrapeOutcome :=
  match get_labels infoResp1 with
  | .error _ => .crash
  | .ok labels =>
    match metricsResp with
    | none => .crash
    | some mj =>
      match mj.getF "metrics" with
      | some (.obj entries) =>
        match translate_metrics labels entries with
        | .error _ => .crash
        | .ok registry =>
          match infoResp2 with
          | none => .crash
          | some ij =>
            match ij.getF "info" with
            | some (.obj info) =>
              if info_keys.all (fun key => (info.lookup key).isSome) then
                match info_translate labels info with
                | .error _ => .crash
                | .ok ims => .ok (registry ++ ims)
              else .incomplete registry
            | _ => .crash
      | _ => .crash

/-- Label list under the pattern claim C3 states, in which the leading
literal stellar-core or v is OPTIONAL and a non-match yields the
all-empty label set.  The tail of the pattern is the shared one.  When a
consumed optional literal makes the rest fail, skipping it cannot
rescue the match (the first character is then not a digit), so the
deterministic reading is exact. -/
def claimed_build_labels (build : String) : List String :=
  let cs := build.toList
  let r1 : List Char :=
    match dropLit "stellar-core".toList cs with
    | some r => r
    | none =>
      match dropLit ['v'] cs with
      | some r => r
      | none => cs
  match match_version_tail r1 with
  | none => ["", "", "", ""]
  | some (maj, mino, pat, extra) =>
    [maj, mino, pat,
     match extra with
     | none => ""
     | some e => String.mk (e.toList.dropWhile (fun c => c = '-'))]

/-- Name normalization as claim C6 words it, written with a flag telling
whether the previous character was whitespace: each occurrence of a dot
or a hyphen and each RUN of whitespace becomes a single underscore, all
other characters are lowercased. -/
def claimed_normalize_go : Bool → List Char → List Char
  | _, [] => []
  | inRun, c :: r =>
    if isPyWhite c then
      (if inRun then [] else ['_']) ++ claimed_normalize_go true r
    else if c = '.' ∨ c = '-' then '_' :: claimed_normalize_go false r
    else c.toLower :: claimed_normalize_go false r

/-- Normalized name under the reading of claim C6: runs collapsed, the
namespace prepended. -/
def claimed_normalize_name (k : String) : String :=
  String.mk ("stellar_core_".toList ++ claimed_normalize_go false k.toList)

/-- Character-by-character normalization, the amended reading: every
single dot, hyphen or whitespace character becomes an underscore, every
other character is lowercased. -/
def amended_normalize_chars : List Char → List Char
  | [] => []
  | c :: r =>
    (if c = '.' ∨ c = '-' ∨ isPyWhite c then '_' else c.toLower) :: amended_normalize_chars r

/-- ASCII uppercase test, stated on the code point. -/
def isAsciiUpper (c : Char) : Bool :=
  decide (65 ≤ c.toNat) && decide (c.toNat ≤ 90)

/-!  Generic helper lemmas about the Except monad and the small parsers. -/

theorem ok_bind {α β : Type} (a : α) (f : α → Except Unit β) :
    (Except.ok a >>= f) = f a := rfl

theorem error_bind {α β : Type} (f : α → Except Unit β) :
    ((Except.error () : Except Unit α) >>= f) = .error () := rfl

theorem except_bind_ok {α β : Type} (x : Except Unit α) (f : α → Except Unit β) (r : β) :
    (x >>= f) = .ok r ↔ ∃ a, x = .ok a ∧ f a = .ok r := by
  cases x with
  | ok a => simp [ok_bind]
  | error e => cases e; simp [error_bind]

theorem except_bind_error {α β : Type} (x : Except Unit α) (f : α → Except Unit β) :
    (x >>= f) = .error () ↔ x = .error () ∨ ∃ a, x = .ok a ∧ f a = .error () := by
  cases x with
  | ok a => simp [ok_bind]
  | error e => cases e; simp [error_bind]

theorem emit_ok_iff {n : String} {k : PromKind} {h : String} {names values : List String}
    {v : ℚ} {om : OutputMetric} :
    emit n k h names values v = .ok om ↔
      names.length = values.length ∧ om = ⟨n, k, h, names, values, v⟩ := by
  unfold emit
  split
  · constructor
    · intro he
      exact ⟨by assumption, (Except.ok.inj he).symm⟩
    · intro ⟨_, he⟩
      rw [he]
  · constructor
    · intro he
      exact absurd he (by simp)
    · intro ⟨hl, _⟩
      exact absurd hl (by assumption)

theorem emit_error_of_len {n : String} {k : PromKind} {h : String}
    {names values : List String} {v : ℚ} (hl : names.length ≠ values.length) :
    emit n k h names values v = .error () := by
  unfold emit
  exact if_neg hl

theorem dropLit_eq_none {p s : List Char} (h : ¬ p <+: s) : dropLit p s = none := by
  unfold dropLit
  have hne : ¬ s.take p.length = p := by
    intro hTake
    have hcat := s.take_append_drop p.length
    rw [hTake] at hcat
    exact h ⟨s.drop p.length, hcat⟩
  simp [hne]

/-- C4: for every numeric value and each of the seven recognized unit
tags, duration_to_seconds multiplies by the exact factor of the
conversion table, and for every unit tag outside the seven it fails with
the KeyError of the unit dictionary (modelled as none), never treating
the value as seconds. -/
theorem C4_duration_exact (v : ℚ) (u : String) :
    duration_to_seconds v "d" = some (v * 86400) ∧
    duration_to_seconds v "h" = some (v * 3600) ∧
    duration_to_seconds v "m" = some (v * 60) ∧
    duration_to_seconds v "s" = some (v * 1) ∧
    duration_to_seconds v "ms" = some (v * (1 / 1000)) ∧
    duration_to_seconds v "us" = some (v * (1 / 1000000)) ∧
    duration_to_seconds v "ns" = some (v * (1 / 1000000000)) ∧
    (u ∉ known_units → duration_to_seconds v u = none) := by
  refine ⟨rfl, rfl, rfl, ?_, ?_, ?_, ?_, ?_⟩
  · show some (v / 1) = some (v * 1)
    norm_num
  · show some (v / 1000) = some (v * (1 / 1000))
    rw [div_eq_mul_inv, one_div]
  · show some (v / 1000000) = some (v * (1 / 1000000))
    rw [div_eq_mul_inv, one_div]
  · show some (v / 1000000000) = some (v * (1 / 1000000000))
    rw [div_eq_mul_inv, one_div]
  · intro hu
    simp only [known_units, List.mem_cons, List.not_mem_nil, or_false, not_or] at hu
    obtain ⟨h1, h2, h3, h4, h5, h6, h7⟩ := hu
    simp [duration_to_seconds, h1, h2, h3, h4, h5, h6, h7]

/-- Witness for C4 at value 7 and the unrecognized unit tag wk. -/
theorem C4_witness : duration_to_seconds 7 "wk" = none :=
  (C4_duration_exact 7 "wk").2.2.2.2.2.2.2 (by decide)

theorem takeWhile_all {p : α → Bool} : ∀ {l : List α}, (∀ x ∈ l, p x = true) →
    l.takeWhile p = l
  | [], _ => rfl
  | c :: r, h => by
    rw [List.takeWhile_cons_of_pos (h c (List.mem_cons_self c r)),
      takeWhile_all (fun x hx => h x (List.mem_cons_of_mem c hx))]

theorem dropWhile_all {p : α → Bool} : ∀ {l : List α}, (∀ x ∈ l, p x = true) →
    l.dropWhile p = []
  | [], _ => rfl
  | c :: r, h => by
    rw [List.dropWhile_cons_of_pos (h c (List.mem_cons_self c r)),
      dropWhile_all (fun x hx => h x (List.mem_cons_of_mem c hx))]

theorem spanDigits_append {l : List Char} {c : Char} {r : List Char}
    (hl : ∀ x ∈ l, x.isDigit = true) (hc : c.isDigit = false) :
    spanDigits (l ++ c :: r) = (l, c :: r) := by
  unfold spanDigits
  rw [List.takeWhile_append_of_pos hl, List.dropWhile_append_of_pos hl,
    List.takeWhile_cons_of_neg (by simp [hc]), List.dropWhile_cons_of_neg (by simp [hc]),
    List.append_nil]

theorem spanDigits_all {l : List Char} (hl : ∀ x ∈ l, x.isDigit = true) :
    spanDigits l = (l, []) := by
  unfold spanDigits
  rw [takeWhile_all hl, dropWhile_all hl]

/-- C3 counterexample: the claim makes the leading literal optional and
lets a non-match return the all-empty label set; the code regex makes
the literal mandatory, so on the build string 11.1.0 the claimed pattern
yields version labels while get_labels parsing yields the empty list,
and on garbage the code returns the empty list, not four empty
strings. -/
theorem C3_counterexample :
    claimed_build_labels "11.1.0" = ["11", "1", "0", ""] ∧
    parse_build_labels "11.1.0" = [] ∧
    claimed_build_labels "garbage" = ["", "", "", ""] ∧
    parse_build_labels "garbage" = [] ∧
    (["11", "1", "0", ""] : List String) ≠ [] ∧
    (["", "", "", ""] : List String) ≠ [] := by decide

/-- Helper for C3: the shared pattern tail accepts digit groups around
literal dots, with no extra group when the input ends at the patch
group. -/
theorem hTailLemma {a0 : Char} {a' d c : List Char} (hnsp : a0 ≠ ' ')
    (hd : d ≠ []) (hc : c ≠ [])
    (hda : ∀ x ∈ a0 :: a', x.isDigit = true) (hdd : ∀ x ∈ d, x.isDigit = true)
    (hdc : ∀ x ∈ c, x.isDigit = true) :
    match_version_tail ((a0 :: a') ++ '.' :: (d ++ '.' :: c)) =
      some (String.mk (a0 :: a'), String.mk d, String.mk c, none) := by
  have e1 : spanDigits ((a0 :: a') ++ '.' :: (d ++ '.' :: c)) =
      (a0 :: a', '.' :: (d ++ '.' :: c)) := spanDigits_append hda (by decide)
  have e2 : spanDigits (d ++ '.' :: c) = (d, '.' :: c) :=
    spanDigits_append hdd (by decide)
  have e3 : spanDigits c = (c, []) := spanDigits_all hdc
  unfold match_version_tail
  rw [show ((a0 :: a') ++ '.' :: (d ++ '.' :: c)).head? = some a0 from rfl]
  rw [if_neg (by simp [hnsp])]
  simp only [e1]
  simp [e2, e3, hd, hc]

/-- C3 as amended: the leading literal stellar-core or v is mandatory
(any build string starting with neither parses to the empty list, the
value get_labels returns on no match), one optional space follows, then
the three dot-separated digit groups, an optional hyphen-EXTRA group and
arbitrary trailing text.  The stated examples parse to their version
labels, with the empty list, not four empty strings, on no match. -/
theorem C3_amended :
    (∀ b : String, ¬ ("stellar-core".toList <+: b.toList) → ¬ (['v'] <+: b.toList) →
      parse_build_labels b = []) ∧
    (∀ a d c : List Char, a ≠ [] → d ≠ [] → c ≠ [] →
      (∀ x ∈ a, x.isDigit = true) → (∀ x ∈ d, x.isDigit = true) →
      (∀ x ∈ c, x.isDigit = true) →
      parse_build_labels (String.mk ('v' :: (a ++ '.' :: (d ++ '.' :: c)))) =
        [String.mk a, String.mk d, String.mk c, ""]) ∧
    parse_build_labels
        "stellar-core 11.1.0-unstablerc2 (324c1bd61b0e9bada63e0d696d799421b00a7950)" =
      ["11", "1", "0", "unstablerc2"] ∧
    parse_build_labels "v11.1.0" = ["11", "1", "0", ""] ∧
    parse_build_labels "garbage" = [] := by
  refine ⟨?_, ?_, by decide, by decide, by decide⟩
  · intro b h1 h2
    have h1x : dropLit ['s', 't', 'e', 'l', 'l', 'a', 'r', '-', 'c', 'o', 'r', 'e'] b.data =
        none := dropLit_eq_none h1
    have h2x : dropLit ['v'] b.data = none := dropLit_eq_none h2
    simp [parse_build_labels, build_match, h1x, h2x]
  · intro a d c ha hd hc hda hdd hdc
    obtain ⟨a0, a', rfl⟩ : ∃ a0 a', a = a0 :: a' := by
      cases a with
      | nil => exact absurd rfl ha
      | cons a0 a' => exact ⟨a0, a', rfl⟩
    have ha0 : a0.isDigit = true := hda a0 (List.mem_cons_self a0 a')
    have hnsp : a0 ≠ ' ' := by
      intro hEq
      rw [hEq] at ha0
      exact absurd ha0 (by decide)
    have h1 : dropLit "stellar-core".toList
        ('v' :: ((a0 :: a') ++ '.' :: (d ++ '.' :: c))) = none := by
      apply dropLit_eq_none
      rintro ⟨t, ht⟩
      have hh := congrArg List.headI ht
      rw [show "stellar-core".toList = 's' :: "tellar-core".toList from rfl,
        List.cons_append] at hh
      simp only [List.headI] at hh
      exact absurd hh (by decide)
    have h2 : dropLit ['v'] ('v' :: ((a0 :: a') ++ '.' :: (d ++ '.' :: c))) =
        some ((a0 :: a') ++ '.' :: (d ++ '.' :: c)) := by
      simp [dropLit]
    have hTail := hTailLemma hnsp hd hc hda hdd hdc
    simp only [parse_build_labels, build_match]
    rw [show (String.mk ('v' :: ((a0 :: a') ++ '.' :: (d ++ '.' :: c)))).toList =
      'v' :: ((a0 :: a') ++ '.' :: (d ++ '.' :: c)) from rfl]
    rw [h1, h2]
    simp only [hTail]

/-- C6 counterexample: on the raw name with two consecutive spaces the
code substitutes each single whitespace character and produces a double
underscore, while the claimed whitespace-run rule produces a single
one. -/
theorem C6_counterexample :
    normalize_name "a  b" = "stellar_core_a__b" ∧
    claimed_normalize_name "a  b" = "stellar_core_a_b" ∧
    ("stellar_core_a__b" : String) ≠ "stellar_core_a_b" := by decide

theorem char_toNat_ofNat_valid {n : ℕ} (h : n.isValidChar) : (Char.ofNat n).toNat = n := by
  unfold Char.ofNat
  rw [dif_pos h]
  rfl

theorem isAsciiUpper_toLower (c : Char) : isAsciiUpper c.toLower = false := by
  by_cases h : c.toNat ≥ 65 ∧ c.toNat ≤ 90
  · have hv : (c.toNat + 32).isValidChar := Or.inl (by omega)
    have ht : c.toLower = Char.ofNat (c.toNat + 32) := by
      unfold Char.toLower
      exact if_pos h
    rw [ht]
    simp only [isAsciiUpper, char_toNat_ofNat_valid hv, Bool.and_eq_false_iff,
      decide_eq_false_iff_not]
    omega
  · have ht : c.toLower = c := by
      unfold Char.toLower
      exact if_neg h
    rw [ht]
    simp only [isAsciiUpper, Bool.and_eq_false_iff, decide_eq_false_iff_not]
    omega

theorem pure_ok {α : Type} (a : α) : (pure a : Except Unit α) = .ok a := rfl

theorem map_lower_sub_eq_amended : ∀ l : List Char,
    (l.map py_sub_char).map Char.toLower = amended_normalize_chars l
  | [] => rfl
  | c :: r => by
    simp only [List.map_cons, amended_normalize_chars]
    rw [map_lower_sub_eq_amended r]
    congr 1
    unfold py_sub_char
    by_cases h : c = '.' ∨ c = '-' ∨ isPyWhite c
    · rw [if_pos h, if_pos h]
      decide
    · rw [if_neg h, if_neg h]

theorem isAsciiUpper_mem_norm {kl : List Char} :
    ∀ c ∈ normalize_chars kl, isAsciiUpper c = false := by
  intro c hc
  unfold normalize_chars at hc
  rcases List.mem_append.mp hc with h | h
  · have hall : ∀ x ∈ "stellar_core_".toList, isAsciiUpper x = false := by decide
    exact hall c h
  · rcases List.mem_map.mp h with ⟨x, -, rfl⟩
    exact isAsciiUpper_toLower x

/-- Shape invariant of every emitted sample: the four version label
names come first and carry the once-resolved label values, possibly
followed by the quantile pair; the resolved label list has four entries;
the name lies in the lowercase stellar_core_ namespace. -/
def MetricShape (labels : List String) (om : OutputMetric) : Prop :=
  ((om.labelNames = label_names ∧ om.labelValues = labels) ∨
    (om.labelNames = label_names ++ ["quantile"] ∧ ∃ q, om.labelValues = labels ++ [q])) ∧
  labels.length = 4 ∧
  "stellar_core_".toList <+: om.name.toList ∧
  ∀ c ∈ om.name.toList, isAsciiUpper c = false

theorem metricShape_plain {n : String} {k : PromKind} {h : String} {labels : List String}
    {v : ℚ} {om : OutputMetric}
    (he : emit n k h label_names labels v = .ok om)
    (hp : "stellar_core_".toList <+: n.toList)
    (hu : ∀ c ∈ n.toList, isAsciiUpper c = false) : MetricShape labels om := by
  obtain ⟨hl, rfl⟩ := emit_ok_iff.mp he
  exact ⟨Or.inl ⟨rfl, rfl⟩, by simpa [label_names] using hl.symm, hp, hu⟩

theorem metricShape_quant {n : String} {k : PromKind} {h : String} {labels : List String}
    {q : String} {v : ℚ} {om : OutputMetric}
    (he : emit n k h (label_names ++ ["quantile"]) (labels ++ [q]) v = .ok om)
    (hp : "stellar_core_".toList <+: n.toList)
    (hu : ∀ c ∈ n.toList, isAsciiUpper c = false) : MetricShape labels om := by
  obtain ⟨hl, rfl⟩ := emit_ok_iff.mp he
  refine ⟨Or.inr ⟨rfl, q, rfl⟩, ?_, hp, hu⟩
  simp only [label_names, List.length_append, List.length_cons, List.length_nil] at hl
  omega

theorem name_facts_mk {kl suf : List Char}
    (hsuf : ∀ c ∈ suf, isAsciiUpper c = false) :
    "stellar_core_".toList <+: (String.mk (normalize_chars kl ++ suf)).toList ∧
    ∀ c ∈ (String.mk (normalize_chars kl ++ suf)).toList, isAsciiUpper c = false := by
  constructor
  · show "stellar_core_".toList <+: (normalize_chars kl ++ suf)
    exact ⟨(kl.map py_sub_char).map Char.toLower ++ suf, by simp [normalize_chars]⟩
  · intro c hc
    rcases List.mem_append.mp hc with hmem | hmem
    · exact isAsciiUpper_mem_norm c hmem
    · exact hsuf c hmem

theorem name_facts_norm (kl : List Char) :
    "stellar_core_".toList <+: (String.mk (normalize_chars kl)).toList ∧
    ∀ c ∈ (String.mk (normalize_chars kl)).toList, isAsciiUpper c = false := by
  have h := @name_facts_mk kl [] (by intro c hc; cases hc)
  rwa [List.append_nil] at h

theorem mapE_ok_mem {α β : Type} {f : α → Except Unit β} :
    ∀ {l : List α} {out : List β}, mapE f l = .ok out → ∀ b ∈ out, ∃ a ∈ l, f a = .ok b
  | [], out, h => by
    intro b hb
    simp only [mapE] at h
    cases h
    cases hb
  | a :: l, out, h => by
    intro b hb
    simp only [mapE, except_bind_ok, pure_ok, Except.ok.injEq] at h
    obtain ⟨b0, hb0, bs, hbs, hout⟩ := h
    rw [← hout] at hb
    rcases List.mem_cons.mp hb with rfl | hmem
    · exact ⟨a, List.mem_cons_self a l, hb0⟩
    · obtain ⟨a1, ha1, hfa1⟩ := mapE_ok_mem hbs b hmem
      exact ⟨a1, List.mem_cons_of_mem a ha1, hfa1⟩

theorem translate_metrics_mem {labels : List String} :
    ∀ {l : List (String × JVal)} {out : List OutputMetric},
      translate_metrics labels l = .ok out →
      ∀ om ∈ out, ∃ kv ∈ l, ∃ ms, translate_entry labels kv.1 kv.2 = .ok ms ∧ om ∈ ms
  | [], out, h => by
    intro om hom
    simp only [translate_metrics] at h
    cases h
    cases hom
  | (k, v) :: l, out, h => by
    intro om hom
    simp only [translate_metrics, except_bind_ok, pure_ok, Except.ok.injEq] at h
    obtain ⟨ms, hms, rest2, hrest, hout⟩ := h
    rw [← hout] at hom
    rcases List.mem_append.mp hom with hmem | hmem
    · exact ⟨(k, v), List.mem_cons_self _ _, ms, hms, hmem⟩
    · obtain ⟨kv, hkv, ms2, hms2, hmem2⟩ := translate_metrics_mem hrest om hmem
      exact ⟨kv, List.mem_cons_of_mem _ hkv, ms2, hms2, hmem2⟩

theorem translate_entry_shape {labels : List String} {k : String} {v : JVal}
    {out : List OutputMetric} (h : translate_entry labels k v = .ok out) :
    ∀ om ∈ out, MetricShape labels om := by
  intro om hom
  cases v with
  | num q => exact absurd h (by simp [translate_entry])
  | str s => exact absurd h (by simp [translate_entry])
  | bool b => exact absurd h (by simp [translate_entry])
  | obj e =>
    simp only [translate_entry] at h
    split at h
    · cases h
    · split at h
      · simp only [except_bind_ok, pure_ok, Except.ok.injEq] at h
        obtain ⟨total, -, cnt, -, m1, hm1, unit, -, ssum, -, m2, hm2, p75, -, s75, -,
          m3, hm3, p99, -, s99, -, m4, hm4, hout⟩ := h
        rw [← hout] at hom
        simp only [List.mem_cons, List.not_mem_nil, or_false] at hom
        have hfc : ∀ c ∈ ("_seconds".toList ++ "_count".toList), isAsciiUpper c = false := by
          decide
        have hfs : ∀ c ∈ ("_seconds".toList ++ "_sum".toList), isAsciiUpper c = false := by
          decide
        have hfq : ∀ c ∈ "_seconds".toList, isAsciiUpper c = false := by decide
        rcases hom with rfl | rfl | rfl | rfl
        · rw [List.append_assoc] at hm1
          exact metricShape_plain hm1 (name_facts_mk hfc).1 (name_facts_mk hfc).2
        · rw [List.append_assoc] at hm2
          exact metricShape_plain hm2 (name_facts_mk hfs).1 (name_facts_mk hfs).2
        · exact metricShape_quant hm3 (name_facts_mk hfq).1 (name_facts_mk hfq).2
        · exact metricShape_quant hm4 (name_facts_mk hfq).1 (name_facts_mk hfq).2
      · split at h
        · simp only [except_bind_ok, pure_ok, Except.ok.injEq] at h
          obtain ⟨cnt, -, m1, hm1, hout⟩ := h
          rw [← hout] at hom
          simp only [List.mem_singleton] at hom
          rw [hom]
          exact metricShape_plain hm1 (name_facts_norm k.toList).1
            (name_facts_norm k.toList).2
        · split at h
          · simp only [except_bind_ok, pure_ok, Except.ok.injEq] at h
            obtain ⟨cnt, -, m1, hm1, hout⟩ := h
            rw [← hout] at hom
            simp only [List.mem_singleton] at hom
            rw [hom]
            exact metricShape_plain hm1 (name_facts_norm k.toList).1
              (name_facts_norm k.toList).2
          · cases h
            cases hom

theorem quorum_gauges_shape {labels : List String} {q : List (String × JVal)}
    {out : List OutputMetric} (h : quorum_gauges labels q = .ok out) :
    ∀ om ∈ out, MetricShape labels om := by
  intro om hom
  simp only [quorum_gauges, except_bind_ok] at h
  obtain ⟨tmp, -, hmap⟩ := h
  obtain ⟨mn, hmn, hf⟩ := mapE_ok_mem hmap om hom
  simp only [except_bind_ok] at hf
  obtain ⟨v, -, he⟩ := hf
  simp only [quorum_metrics, List.mem_cons, List.not_mem_nil, or_false] at hmn
  rcases hmn with rfl | rfl | rfl | rfl | rfl <;>
    exact metricShape_plain he (by decide) (by decide)

theorem transitive_gauges_shape {labels : List String} {q : List (String × JVal)}
    {out : List OutputMetric} (h : transitive_gauges labels q = .ok out) :
    ∀ om ∈ out, MetricShape labels om := by
  intro om hom
  simp only [transitive_gauges] at h
  split at h
  · cases h
    cases hom
  · simp only [except_bind_ok, pure_ok, Except.ok.injEq] at h
    obtain ⟨inter, -, m1, hm1, lcl, -, m2, hm2, nc, -, m3, hm3, hout⟩ := h
    rw [← hout] at hom
    simp only [List.mem_cons, List.not_mem_nil, or_false] at hom
    rcases hom with rfl | rfl | rfl
    · exact metricShape_plain hm1 (by decide) (by decide)
    · exact metricShape_plain hm2 (by decide) (by decide)
    · exact metricShape_plain hm3 (by decide) (by decide)

theorem info_translate_shape {labels : List String} {info : List (String × JVal)}
    {out : List OutputMetric} (h : info_translate labels info = .ok out) :
    ∀ om ∈ out, MetricShape labels om := by
  intro om hom
  simp only [info_translate, except_bind_ok, pure_ok, Except.ok.injEq] at h
  obtain ⟨ledger, -, lms, hlms, quorum, -, qms, hqms, tms, htms, peers, -, ac, -, m1, hm1,
    pc, -, m2, hm2, pv, -, m3, hm3, st, -, m4, hm4, so, -, ep, -, m5, hm5, hout⟩ := h
  rw [← hout] at hom
  simp only [List.mem_append, List.mem_cons, List.not_mem_nil, or_false] at hom
  rcases hom with ((hmem | hmem) | hmem) | rfl | rfl | rfl | rfl | rfl
  · obtain ⟨cp, hcp, hf⟩ := mapE_ok_mem hlms om hmem
    simp only [except_bind_ok] at hf
    obtain ⟨v, -, he⟩ := hf
    simp only [ledger_metrics, List.mem_cons, List.not_mem_nil, or_false] at hcp
    rcases hcp with rfl | rfl | rfl | rfl | rfl | rfl | rfl <;>
      exact metricShape_plain he (by decide) (by decide)
  · exact quorum_gauges_shape hqms om hmem
  · exact transitive_gauges_shape htms om hmem
  · exact metricShape_plain hm1 (by decide) (by decide)
  · exact metricShape_plain hm2 (by decide) (by decide)
  · exact metricShape_plain hm3 (by decide) (by decide)
  · exact metricShape_plain hm4 (by decide) (by decide)
  · exact metricShape_plain hm5 (by decide) (by decide)

theorem registry_shape {i1 m i2 : Option JVal} {labels : List String}
    (hlab : get_labels i1 = .ok labels) :
    ∀ om ∈ registryOf (do_GET_model i1 m i2), MetricShape labels om := by
  intro om hom
  rw [do_GET_model] at hom
  split at hom
  · simp [registryOf] at hom
  · next L hL =>
    rw [hlab] at hL
    injection hL with hL
    subst hL
    split at hom
    · simp [registryOf] at hom
    · split at hom
      · next entries hent =>
        split at hom
        · simp [registryOf] at hom
        · next registry hreg =>
          split at hom
          · simp [registryOf] at hom
          · split at hom
            · next info hinfo =>
              split at hom
              · split at hom
                · simp [registryOf] at hom
                · next ims hims =>
                  simp only [registryOf, List.mem_append] at hom
                  rcases hom with hmem | hmem
                  · obtain ⟨kv, -, ms, hms, hmem2⟩ := translate_metrics_mem hreg om hmem
                    exact translate_entry_shape hms om hmem2
                  · exact info_translate_shape hims om hmem
              · simp only [registryOf] at hom
                obtain ⟨kv, -, ms, hms, hmem2⟩ := translate_metrics_mem hreg om hom
                exact translate_entry_shape hms om hmem2
            · simp [registryOf] at hom
      · simp [registryOf] at hom

/-- Concrete scrape input: an info response whose build string is
v11.1.0, used for label resolution. -/
def sample_info_resp : Option JVal :=
  some (.obj [("info", .obj [("build", .str "v11.1.0")])])

/-- Concrete scrape input: one counter entry named database.reads. -/
def sample_metrics_resp : Option JVal :=
  some (.obj [("metrics", .obj
    [("database.reads", .obj [("type", .str "counter"), ("count", .num 42)])])])

/-- Concrete scrape input: a complete info snapshot with the qset quorum
shape. -/
def sample_full_info : Option JVal :=
  some (.obj [("info", .obj
    [("ledger", .obj [("age", .num 1), ("baseFee", .num 100), ("baseReserve", .num 5000000),
       ("closeTime", .num 3), ("maxTxSetSize", .num 1000), ("num", .num 123456),
       ("version", .num 11)]),
     ("peers", .obj [("authenticated_count", .num 8), ("pending_count", .num 2)]),
     ("protocol_version", .num 11),
     ("quorum", .obj [("qset", .obj [("agree", .num 3), ("delayed", .num 0),
       ("disagree", .num 0), ("fail_at", .num 2), ("missing", .num 0)])]),
     ("startedOn", .str "2019-05-01T12:00:00Z"),
     ("state", .str "Synced!")])])

/-- The sample emitted by the counter entry of sample_metrics_resp. -/
def sample_counter_metric : OutputMetric :=
  ⟨"stellar_core_database_reads", .gauge, "libmedida metric type: counter",
    label_names, ["11", "1", "0", ""], 42⟩

/-- C9: within one scrape every sample left in the registry carries the
four version label names first, paired with the label values resolved
once by get_labels from the first info fetch before translation begins,
and that resolved list has exactly four entries. -/
theorem C9_labels_once (i1 m i2 : Option JVal) (L : List String) (om : OutputMetric)
    (hlab : get_labels i1 = .ok L)
    (h : om ∈ registryOf (do_GET_model i1 m i2)) :
    L.length = 4 ∧ om.labelNames.take 4 = label_names ∧ om.labelValues.take 4 = L := by
  obtain ⟨hshape, hlen, -, -⟩ := registry_shape hlab om h
  refine ⟨hlen, ?_⟩
  rcases hshape with ⟨hn, hv⟩ | ⟨hn, q, hv⟩
  · rw [hn, hv]
    exact ⟨by decide, List.take_of_length_le (le_of_eq hlen)⟩
  · rw [hn, hv]
    exact ⟨List.take_left' rfl, List.take_left' hlen⟩

/-- Witness for C9: the concrete counter scrape, whose resolved labels
are the four components of v11.1.0. -/
theorem C9_witness :
    (["11", "1", "0", ""] : List String).length = 4 ∧
    sample_counter_metric.labelNames.take 4 = label_names ∧
    sample_counter_metric.labelValues.take 4 = ["11", "1", "0", ""] :=
  C9_labels_once sample_info_resp sample_metrics_resp sample_full_info
    ["11", "1", "0", ""] sample_counter_metric rfl (by decide)

/-- C6 as amended: the normalized name is obtained by replacing each
occurrence of a dot, a hyphen and each SINGLE whitespace character by
one underscore, lowercasing every other character and prepending the
stellar_core_ namespace; and every name in the registry of any scrape
starts with stellar_core_ and contains no ASCII uppercase character. -/
theorem C6_amended :
    (∀ k : String, normalize_name k =
      String.mk ("stellar_core_".toList ++ amended_normalize_chars k.toList)) ∧
    (∀ i1 m i2 : Option JVal, ∀ om ∈ registryOf (do_GET_model i1 m i2),
      "stellar_core_".toList <+: om.name.toList ∧
      ∀ c ∈ om.name.toList, isAsciiUpper c = false) := by
  constructor
  · intro k
    unfold normalize_name normalize_chars
    rw [map_lower_sub_eq_amended]
  · intro i1 m i2 om hom
    cases hlab : get_labels i1 with
    | error e =>
      rw [do_GET_model, hlab] at hom
      simp [registryOf] at hom
    | ok L =>
      obtain ⟨-, -, hp, hu⟩ := registry_shape hlab om hom
      exact ⟨hp, hu⟩

/-- Witness for C6: the namespace fact at the concrete counter scrape. -/
theorem C6_witness :
    "stellar_core_".toList <+: sample_counter_metric.name.toList :=
  (C6_amended.2 sample_info_resp sample_metrics_resp sample_full_info
    sample_counter_metric (by decide)).1

/-- C5: a timer entry yields exactly three series (four samples): the
seconds-count counter equal to count, the seconds-sum counter equal to
toSeconds of the sum field when present and of mean times count
otherwise, and the seconds gauge with quantile labels 0.75 and 0.99
holding toSeconds of the two percentile fields; the stated op.latency
example yields the four stated samples. -/
theorem C5_timer_translation :
    (∀ (la lb lc ld k : String) (cnt sv p75 p99 s1 s75 s99 : ℚ) (u : String),
      duration_to_seconds sv u = some s1 →
      duration_to_seconds p75 u = some s75 →
      duration_to_seconds p99 u = some s99 →
      translate_entry [la, lb, lc, ld] k (.obj [("type", .str "timer"), ("count", .num cnt),
          ("sum", .num sv), ("duration_unit", .str u), ("75%", .num p75), ("99%", .num p99)]) =
        .ok [⟨String.mk (normalize_chars k.toList ++ "_seconds".toList ++ "_count".toList),
                .counter, "libmedida metric type: timer", label_names, [la, lb, lc, ld], cnt⟩,
             ⟨String.mk (normalize_chars k.toList ++ "_seconds".toList ++ "_sum".toList),
                .counter, "libmedida metric type: timer", label_names, [la, lb, lc, ld], s1⟩,
             ⟨String.mk (normalize_chars k.toList ++ "_seconds".toList), .gauge,
                "libmedida metric type: timer", label_names ++ ["quantile"],
                [la, lb, lc, ld] ++ ["0.75"], s75⟩,
             ⟨String.mk (normalize_chars k.toList ++ "_seconds".toList), .gauge,
                "libmedida metric type: timer", label_names ++ ["quantile"],
                [la, lb, lc, ld] ++ ["0.99"], s99⟩]) ∧
    (∀ (la lb lc ld k : String) (cnt mv p75 p99 s1 s75 s99 : ℚ) (u : String),
      duration_to_seconds (mv * cnt) u = some s1 →
      duration_to_seconds p75 u = some s75 →
      duration_to_seconds p99 u = some s99 →
      translate_entry [la, lb, lc, ld] k (.obj [("type", .str "timer"), ("count", .num cnt),
          ("mean", .num mv), ("duration_unit", .str u), ("75%", .num p75), ("99%", .num p99)]) =
        .ok [⟨String.mk (normalize_chars k.toList ++ "_seconds".toList ++ "_count".toList),
                .counter, "libmedida metric type: timer", label_names, [la, lb, lc, ld], cnt⟩,
             ⟨String.mk (normalize_chars k.toList ++ "_seconds".toList ++ "_sum".toList),
                .counter, "libmedida metric type: timer", label_names, [la, lb, lc, ld], s1⟩,
             ⟨String.mk (normalize_chars k.toList ++ "_seconds".toList), .gauge,
                "libmedida metric type: timer", label_names ++ ["quantile"],
                [la, lb, lc, ld] ++ ["0.75"], s75⟩,
             ⟨String.mk (normalize_chars k.toList ++ "_seconds".toList), .gauge,
                "libmedida metric type: timer", label_names ++ ["quantile"],
                [la, lb, lc, ld] ++ ["0.99"], s99⟩]) ∧
    translate_entry ["11", "1", "0", ""] "op.latency" (.obj [("type", .str "timer"),
        ("count", .num 10), ("sum", .num 5), ("duration_unit", .str "s"),
        ("75%", .num 0.4), ("99%", .num 0.9)]) =
      .ok [⟨"stellar_core_op_latency_seconds_count", .counter, "libmedida metric type: timer",
              label_names, ["11", "1", "0", ""], 10⟩,
           ⟨"stellar_core_op_latency_seconds_sum", .counter, "libmedida metric type: timer",
              label_names, ["11", "1", "0", ""], 5⟩,
           ⟨"stellar_core_op_latency_seconds", .gauge, "libmedida metric type: timer",
              label_names ++ ["quantile"], ["11", "1", "0", ""] ++ ["0.75"], 0.4⟩,
           ⟨"stellar_core_op_latency_seconds", .gauge, "libmedida metric type: timer",
              label_names ++ ["quantile"], ["11", "1", "0", ""] ++ ["0.99"], 0.9⟩] := by
  have ht1 : (JVal.str "timer").isStr "timer" = true := rfl
  refine ⟨?_, ?_, ?_⟩
  · intro la lb lc ld k cnt sv p75 p99 s1 s75 s99 u h1 h75 h99
    simp [translate_entry, timer_total, getNumF, getStrF, List.lookup, ok_bind, error_bind,
      pure_ok, h1, h75, h99, ofOpt, emit, label_names, ht1]
  · intro la lb lc ld k cnt mv p75 p99 s1 s75 s99 u h1 h75 h99
    simp [translate_entry, timer_total, getNumF, getStrF, List.lookup, ok_bind, error_bind,
      pure_ok, h1, h75, h99, ofOpt, emit, label_names, ht1]
  · have hname1 : String.mk (normalize_chars "op.latency".toList ++ "_seconds".toList ++
        "_count".toList) = "stellar_core_op_latency_seconds_count" := by decide
    have hname2 : String.mk (normalize_chars "op.latency".toList ++ "_seconds".toList ++
        "_sum".toList) = "stellar_core_op_latency_seconds_sum" := by decide
    have hname3 : String.mk (normalize_chars "op.latency".toList ++ "_seconds".toList) =
        "stellar_core_op_latency_seconds" := by decide
    rw [← hname1, ← hname2, ← hname3]
    have h1 : duration_to_seconds 5 "s" = some 5 := by
      show some ((5 : ℚ) / 1) = some 5
      norm_num
    have h75 : duration_to_seconds 0.4 "s" = some 0.4 := by
      show some ((0.4 : ℚ) / 1) = some 0.4
      norm_num
    have h99 : duration_to_seconds 0.9 "s" = some 0.9 := by
      show some ((0.9 : ℚ) / 1) = some 0.9
      norm_num
    simp [translate_entry, timer_total, getNumF, getStrF, List.lookup, ok_bind, error_bind,
      pure_ok, h1, h75, h99, ofOpt, emit, label_names, ht1]

/-- Witness for C5 at a millisecond-unit timer entry. -/
theorem C5_witness :
    translate_entry ["11", "1", "0", ""] "op.latency" (.obj [("type", .str "timer"),
        ("count", .num 10), ("sum", .num 2000), ("duration_unit", .str "ms"),
        ("75%", .num 100), ("99%", .num 500)]) =
      .ok [⟨String.mk (normalize_chars "op.latency".toList ++ "_seconds".toList ++
              "_count".toList), .counter, "libmedida metric type: timer", label_names,
              ["11", "1", "0", ""], 10⟩,
           ⟨String.mk (normalize_chars "op.latency".toList ++ "_seconds".toList ++
              "_sum".toList), .counter, "libmedida metric type: timer", label_names,
              ["11", "1", "0", ""], 2⟩,
           ⟨String.mk (normalize_chars "op.latency".toList ++ "_seconds".toList), .gauge,
              "libmedida metric type: timer", label_names ++ ["quantile"],
              ["11", "1", "0", ""] ++ ["0.75"], 1 / 10⟩,
           ⟨String.mk (normalize_chars "op.latency".toList ++ "_seconds".toList), .gauge,
              "libmedida metric type: timer", label_names ++ ["quantile"],
              ["11", "1", "0", ""] ++ ["0.99"], 1 / 2⟩] :=
  C5_timer_translation.1 "11" "1" "0" "" "op.latency" 10 2000 100 500 2 (1 / 10) (1 / 2) "ms"
    (by show some ((2000 : ℚ) / 1000) = some 2; norm_num)
    (by show some ((100 : ℚ) / 1000) = some (1 / 10); norm_num)
    (by show some ((500 : ℚ) / 1000) = some (1 / 2); norm_num)

/-- C7: for a quorum mapping with exactly one entry, the five quorum
gauges are identical whether the mapping uses the new qset shape or the
legacy single-node-id shape: the source object is qset when that key is
present and otherwise the single value of the mapping. -/
theorem C7_quorum_shapes (labels : List String) (nodeid : String) (body : JVal) :
    quorum_gauges labels [(nodeid, body)] = quorum_gauges labels [("qset", body)] := by
  have h : quorum_tmp [(nodeid, body)] = quorum_tmp [("qset", body)] := by
    unfold quorum_tmp
    by_cases hq : nodeid = "qset"
    · subst hq
      rfl
    · have h1 : List.lookup "qset" [(nodeid, body)] = none := by
        simp only [List.lookup]
        cases hbe : ("qset" == nodeid) with
        | true => exact absurd (eq_of_beq hbe).symm hq
        | false => rfl
      have h2 : List.lookup "qset" [("qset", body)] = some body := by
        simp [List.lookup]
      rw [h1, h2]
  unfold quorum_gauges
  rw [h]

/-- C8: an entry whose type tag is present but is none of timer, counter
or meter emits no sample, and the translation of the snapshot with that
entry removed is unchanged: the entry is silently skipped and the
remaining entries are still translated. -/
theorem C8_unknown_kind (labels : List String) (k : String) (e : List (String × JVal))
    (t : JVal) (hty : e.lookup "type" = some t)
    (h1 : t.isStr "timer" = false) (h2 : t.isStr "counter" = false)
    (h3 : t.isStr "meter" = false) :
    translate_entry labels k (.obj e) = .ok [] ∧
    ∀ pre post, translate_metrics labels (pre ++ (k, .obj e) :: post) =
      translate_metrics labels (pre ++ post) := by
  have hent : translate_entry labels k (.obj e) = .ok [] := by
    simp [translate_entry, hty, h1, h2, h3]
  refine ⟨hent, ?_⟩
  intro pre post
  induction pre with
  | nil =>
    simp only [List.nil_append, translate_metrics, hent, ok_bind]
    cases hpost : translate_metrics labels post with
    | error u =>
      cases u
      simp [error_bind]
    | ok l =>
      simp [ok_bind, pure_ok]
  | cons kv pre ih =>
    obtain ⟨k1, v1⟩ := kv
    simp only [List.cons_append, translate_metrics, List.append_eq, ih]

/-- Witness for C8: a histogram entry between two known entries is
skipped and translation continues. -/
theorem C8_witness :
    translate_entry ["11", "1", "0", ""] "foo.bar"
        (.obj [("type", .str "histogram"), ("count", .num 5)]) = .ok [] ∧
    translate_metrics ["11", "1", "0", ""]
        ([("x", JVal.obj [("type", .str "meter"), ("count", .num 1)])] ++
          ("foo.bar", JVal.obj [("type", .str "histogram"), ("count", .num 5)]) ::
          [("y", JVal.obj [("type", .str "counter"), ("count", .num 2)])]) =
      translate_metrics ["11", "1", "0", ""]
        ([("x", JVal.obj [("type", .str "meter"), ("count", .num 1)])] ++
          [("y", JVal.obj [("type", .str "counter"), ("count", .num 2)])]) := by
  have h := C8_unknown_kind ["11", "1", "0", ""] "foo.bar"
    [("type", .str "histogram"), ("count", .num 5)] (.str "histogram") rfl rfl rfl rfl
  exact ⟨h.1, h.2 [("x", JVal.obj [("type", .str "meter"), ("count", .num 1)])]
    [("y", JVal.obj [("type", .str "counter"), ("count", .num 2)])]⟩

theorem isStr_eq {t : JVal} {s : String} (h : t.isStr s = true) : t = .str s := by
  cases t with
  | str s2 =>
    simp only [JVal.isStr, decide_eq_true_eq] at h
    rw [h]
  | num q => exact absurd h (by simp [JVal.isStr])
  | bool b => exact absurd h (by simp [JVal.isStr])
  | obj f => exact absurd h (by simp [JVal.isStr])

theorem translate_entry_known_err (k : String) {e : List (String × JVal)} {t : JVal}
    (hty : e.lookup "type" = some t)
    (hkind : t.isStr "timer" = true ∨ t.isStr "counter" = true ∨ t.isStr "meter" = true) :
    translate_entry [] k (.obj e) = .error () := by
  cases htr : translate_entry [] k (.obj e) with
  | error u => cases u; rfl
  | ok out =>
    exfalso
    rcases hkind with ht | ht | ht <;> rw [isStr_eq ht] at hty <;>
      rw [translate_entry, hty] at htr
    · simp only [show (JVal.str "timer").isStr "timer" = true from rfl, if_true,
        except_bind_ok, pure_ok] at htr
      obtain ⟨total, -, cnt, -, m1, hm1, -⟩ := htr
      obtain ⟨hl, -⟩ := emit_ok_iff.mp hm1
      exact absurd hl (by decide)
    · simp only [show (JVal.str "counter").isStr "timer" = false from rfl,
        show (JVal.str "counter").isStr "counter" = true from rfl,
        Bool.false_eq_true, if_false, if_true, except_bind_ok, pure_ok] at htr
      obtain ⟨cnt, -, m1, hm1, -⟩ := htr
      obtain ⟨hl, -⟩ := emit_ok_iff.mp hm1
      exact absurd hl (by decide)
    · simp only [show (JVal.str "meter").isStr "timer" = false from rfl,
        show (JVal.str "meter").isStr "counter" = false from rfl,
        show (JVal.str "meter").isStr "meter" = true from rfl,
        Bool.false_eq_true, if_false, if_true, except_bind_ok, pure_ok] at htr
      obtain ⟨cnt, -, m1, hm1, -⟩ := htr
      obtain ⟨hl, -⟩ := emit_ok_iff.mp hm1
      exact absurd hl (by decide)

theorem translate_metrics_error_mem {labels : List String} {k : String} {v : JVal}
    (hent : translate_entry labels k v = .error ()) :
    ∀ pre post, translate_metrics labels (pre ++ (k, v) :: post) = .error () := by
  intro pre post
  induction pre with
  | nil =>
    simp [translate_metrics, hent, error_bind]
  | cons kv pre ih =>
    obtain ⟨k1, v1⟩ := kv
    simp only [List.cons_append, translate_metrics, List.append_eq, ih]
    cases h1 : translate_entry labels k1 v1 with
    | error u => cases u; simp [error_bind]
    | ok ms => simp [ok_bind, error_bind]

theorem do_GET_crash_of_metrics_error (i1 i2 : Option JVal) {labels : List String}
    {entries : List (String × JVal)} (hlab : get_labels i1 = .ok labels)
    (herr : translate_metrics labels entries = .error ()) :
    do_GET_model i1 (some (.obj [("metrics", .obj entries)])) i2 = .crash := by
  simp [do_GET_model, hlab, JVal.getF, List.lookup, herr]

/-- C2 counterexample: on a failed info fetch get_labels returns the
EMPTY list, not the all-empty four-string label set, and a scrape whose
snapshot holds a counter entry then crashes with no response (the
prometheus client rejects zero label values against four label names)
instead of proceeding with empty version labels. -/
theorem C2_counterexample :
    get_labels none = .ok [] ∧
    (([] : List String) ≠ ["", "", "", ""]) ∧
    do_GET_model none sample_metrics_resp sample_full_info = .crash ∧
    responseWritten (do_GET_model none sample_metrics_resp sample_full_info) = false := by
  refine ⟨rfl, by decide, by decide, by decide⟩

/-- C2 as amended: when fetching or decoding the info endpoint fails
during label resolution, get_labels swallows the error and returns the
empty list [] (not four empty strings); the request is then aborted
rather than decorated: as soon as the snapshot holds an entry of a known
kind, the labels call with zero values against four declared label names
raises, the scrape crashes and no response is written. -/
theorem C2_amended :
    (get_labels none = .ok []) ∧
    (∀ j : JVal, info_build (some j) = none → get_labels (some j) = .ok []) ∧
    (∀ (pre post : List (String × JVal)) (k : String) (e : List (String × JVal)) (t : JVal)
        (i2 : Option JVal),
      e.lookup "type" = some t →
      (t.isStr "timer" = true ∨ t.isStr "counter" = true ∨ t.isStr "meter" = true) →
      do_GET_model none (some (.obj [("metrics", .obj (pre ++ (k, .obj e) :: post))])) i2 =
          .crash ∧
      responseWritten (do_GET_model none
          (some (.obj [("metrics", .obj (pre ++ (k, .obj e) :: post))])) i2) = false) := by
  refine ⟨rfl, ?_, ?_⟩
  · intro j hj
    simp [get_labels, hj]
  · intro pre post k e t i2 hty hkind
    have hcrash := do_GET_crash_of_metrics_error none i2 (rfl : get_labels none = .ok [])
      (translate_metrics_error_mem (translate_entry_known_err k hty hkind) pre post)
    exact ⟨hcrash, by rw [hcrash]; rfl⟩

/-- Witness for C2: the crash at a concrete one-counter scrape with a
failed first info fetch. -/
theorem C2_witness :
    do_GET_model none (some (.obj [("metrics", .obj ([] ++
        ("database.reads", JVal.obj [("type", .str "counter"), ("count", .num 42)]) :: []))]))
      (some (.obj [("info", .obj [])])) = .crash := by
  have h := C2_amended.2.2 [] [] "database.reads"
    [("type", .str "counter"), ("count", .num 42)] (.str "counter")
    (some (.obj [("info", .obj [])])) rfl (Or.inr (Or.inl rfl))
  exact h.1

/-- Concrete scrape input: an info snapshot missing the required state
key. -/
def sample_incomplete_info : Option JVal :=
  some (.obj [("info", .obj
    [("ledger", .obj [("age", .num 1), ("baseFee", .num 100), ("baseReserve", .num 5000000),
       ("closeTime", .num 3), ("maxTxSetSize", .num 1000), ("num", .num 123456),
       ("version", .num 11)]),
     ("peers", .obj [("authenticated_count", .num 8), ("pending_count", .num 2)]),
     ("protocol_version", .num 11),
     ("quorum", .obj [("qset", .obj [("agree", .num 3), ("delayed", .num 0),
       ("disagree", .num 0), ("fail_at", .num 2), ("missing", .num 0)])]),
     ("startedOn", .str "2019-05-01T12:00:00Z")])])

/-- C1 counterexample: with the state key missing from the info
snapshot, the scrape stops in the incomplete-info branch: the counter
metric from the metrics endpoint sits in the registry, the warning is
printed, and NO HTTP response is written, so the already-translated
metrics are not present in any response body. -/
theorem C1_counterexample :
    do_GET_model sample_info_resp sample_metrics_resp sample_incomplete_info =
      .incomplete [sample_counter_metric] ∧
    responseWritten (do_GET_model sample_info_resp sample_metrics_resp
      sample_incomplete_info) = false := by
  refine ⟨by decide, by decide⟩

/-- C1 as amended: whenever the info snapshot at translation time lacks
one of the six required keys, the handler prints the warning and returns
with the registry holding exactly the counter/meter/timer samples
already translated from the metrics endpoint, zero info-derived samples
among them, and NO HTTP response is written at all: the already-computed
samples are discarded rather than served. -/
theorem C1_incomplete_info (i1 : Option JVal) (labels : List String)
    (entries info : List (String × JVal)) (reg : List OutputMetric)
    (hlab : get_labels i1 = .ok labels)
    (htm : translate_metrics labels entries = .ok reg)
    (hmiss : (info_keys.all fun key => (info.lookup key).isSome) = false) :
    do_GET_model i1 (some (.obj [("metrics", .obj entries)]))
        (some (.obj [("info", .obj info)])) = .incomplete reg ∧
    responseWritten (do_GET_model i1 (some (.obj [("metrics", .obj entries)]))
        (some (.obj [("info", .obj info)]))) = false := by
  have h : do_GET_model i1 (some (.obj [("metrics", .obj entries)]))
      (some (.obj [("info", .obj info)])) = .incomplete reg := by
    simp [do_GET_model, hlab, JVal.getF, List.lookup, htm, hmiss]
  exact ⟨h, by rw [h]; rfl⟩

/-- Witness for C1: the concrete incomplete-info scrape. -/
theorem C1_witness :
    do_GET_model sample_info_resp sample_metrics_resp sample_incomplete_info =
      .incomplete [sample_counter_metric] ∧
    responseWritten (do_GET_model sample_info_resp sample_metrics_resp
      sample_incomplete_info) = false :=
  C1_incomplete_info sample_info_resp ["11", "1", "0", ""]
    [("database.reads", .obj [("type", .str "counter"), ("count", .num 42)])]
    [("ledger", .obj [("age", .num 1), ("baseFee", .num 100), ("baseReserve", .num 5000000),
       ("closeTime", .num 3), ("maxTxSetSize", .num 1000), ("num", .num 123456),
       ("version", .num 11)]),
     ("peers", .obj [("authenticated_count", .num 8), ("pending_count", .num 2)]),
     ("protocol_version", .num 11),
     ("quorum", .obj [("qset", .obj [("agree", .num 3), ("delayed", .num 0),
       ("disagree", .num 0), ("fail_at", .num 2), ("missing", .num 0)])]),
     ("startedOn", .str "2019-05-01T12:00:00Z")]
    [sample_counter_metric] rfl rfl rfl

theorem translate_timer_missing_err (labels : List String) (k : String)
    {e : List (String × JVal)} (hty : e.lookup "type" = some (JVal.str "timer"))
    (hmiss : e.lookup "75%" = none ∨ e.lookup "99%" = none ∨
      e.lookup "duration_unit" = none) :
    translate_entry labels k (.obj e) = .error () := by
  cases htr : translate_entry labels k (.obj e) with
  | error u => cases u; rfl
  | ok out =>
    exfalso
    rw [translate_entry, hty] at htr
    simp only [show (JVal.str "timer").isStr "timer" = true from rfl, if_true,
      except_bind_ok, pure_ok] at htr
    obtain ⟨total, -, cnt, -, m1, -, u, hu, ssum, -, m2, -, p75, hp75, s75, -, m3, -,
      p99, hp99, s99, -, m4, -, -⟩ := htr
    rcases hmiss with hm | hm | hm
    · rw [getNumF, hm] at hp75
      cases hp75
    · rw [getNumF, hm] at hp99
      cases hp99
    · rw [getStrF, hm] at hu
      cases hu

/-- C10: a timer entry lacking the 75-percent field, the 99-percent
field or the duration_unit field makes its translation raise (the timer
branch reads all three unconditionally), so the whole scrape crashes and
no response is written, whichever position the entry occupies in the
snapshot. -/
theorem C10_timer_mandatory_fields (i1 i2 : Option JVal) (labels : List String)
    (pre post : List (String × JVal)) (k : String) (e : List (String × JVal))
    (hlab : get_labels i1 = .ok labels)
    (hty : e.lookup "type" = some (JVal.str "timer"))
    (hmiss : e.lookup "75%" = none ∨ e.lookup "99%" = none ∨
      e.lookup "duration_unit" = none) :
    translate_entry labels k (.obj e) = .error () ∧
    do_GET_model i1 (some (.obj [("metrics", .obj (pre ++ (k, .obj e) :: post))])) i2 =
      .crash ∧
    responseWritten (do_GET_model i1
      (some (.obj [("metrics", .obj (pre ++ (k, .obj e) :: post))])) i2) = false := by
  have hent := translate_timer_missing_err labels k hty hmiss
  have hcrash := do_GET_crash_of_metrics_error i1 i2 hlab
    (translate_metrics_error_mem hent pre post)
  exact ⟨hent, hcrash, by rw [hcrash]; rfl⟩

/-- Witness for C10: a timer entry without duration_unit crashes the
whole scrape. -/
theorem C10_witness :
    translate_entry ["11", "1", "0", ""] "op.latency"
        (.obj [("type", .str "timer"), ("count", .num 10), ("sum", .num 5),
          ("75%", .num 1), ("99%", .num 2)]) = .error () ∧
    do_GET_model sample_info_resp
        (some (.obj [("metrics", .obj ([] ++ ("op.latency", JVal.obj [("type", .str "timer"),
          ("count", .num 10), ("sum", .num 5), ("75%", .num 1), ("99%", .num 2)]) :: []))]))
        sample_full_info = .crash ∧
    responseWritten (do_GET_model sample_info_resp
        (some (.obj [("metrics", .obj ([] ++ ("op.latency", JVal.obj [("type", .str "timer"),
          ("count", .num 10), ("sum", .num 5), ("75%", .num 1), ("99%", .num 2)]) :: []))]))
        sample_full_info) = false :=
  C10_timer_mandatory_fields sample_info_resp sample_full_info ["11", "1", "0", ""] [] []
    "op.latency" [("type", .str "timer"), ("count", .num 10), ("sum", .num 5),
      ("75%", .num 1), ("99%", .num 2)] rfl rfl (Or.inr (Or.inr rfl))
